import Mathlib

/-!
Verification development for the mirakc core: the EPG schedule matrix
(`epg.rs`) and the tuner manager (`tuner.rs`).

Rust fixed-size arrays are modelled as Lean lists together with length
facts (`[Option<EpgSection>; 8]` becomes a list of length 8, and so on).
Machine integers (`u8`, `u16`, `u32`, `usize`) are modelled as `Nat`;
`i32` priorities and JST timestamps / millisecond durations are modelled
as `Int`.  A Rust operation that can panic (index out of bounds, integer
underflow, `unwrap` of the wrong variant) is modelled as an
`Option`-valued function where `none` stands for the panic.
-/

/-! ## EPG data model (epg.rs) -/

/-- Modelled from the spec: `ServiceTriple` lives in `models.rs`, which is
not under `src/`.  The spec defines it as
`(network_id: u16, ts_id: u16, service_id: u16)`. -/
structure ServiceTriple where
  nid : Nat
  tsid : Nat
  sid : Nat
deriving DecidableEq, Repr

/-- One EIT descriptor (`EitDescriptor` in epg.rs). -/
inductive EitDescriptor where
  | ShortEvent (event_name : String) (text : String)
  | Component (stream_content : Nat) (component_type : Nat)
  | AudioComponent (component_type : Nat) (sampling_rate : Nat)
  | Content (nibbles : List (Nat × Nat × Nat × Nat))
  | ExtendedEvent (items : List (String × String))
deriving DecidableEq, Repr

/-- One EIT event (`EitEvent` in epg.rs).  `start_time` is a JST timestamp
in milliseconds, `duration` a duration in milliseconds. -/
structure EitEvent where
  event_id : Nat
  start_time : Int
  duration : Int
  scrambled : Bool
  descriptors : List EitDescriptor
deriving DecidableEq, Repr

def EitEvent.end_time (e : EitEvent) : Int :=
  e.start_time + e.duration

def EitEvent.is_overnight_event (e : EitEvent) (midnight : Int) : Bool :=
  decide (e.start_time < midnight) && decide (e.end_time > midnight)

/-- One decoded EIT section (`EitSection` in epg.rs). -/
structure EitSection where
  original_network_id : Nat
  transport_stream_id : Nat
  service_id : Nat
  table_id : Nat
  section_number : Nat
  last_section_number : Nat
  segment_last_section_number : Nat
  version_number : Nat
  events : List EitEvent
deriving DecidableEq, Repr

/-- `EitSection::table_index`.  In Rust this is
`self.table_id as usize - 0x50`, a `usize` subtraction that panics
(debug) or wraps to a huge index (release) when `table_id < 0x50`;
either way the subsequent `tables[i]` indexing panics.  `none` models
the panic. -/
def EitSection.table_index (s : EitSection) : Option Nat :=
  if s.table_id < 0x50 then none else some (s.table_id - 0x50)

def EitSection.segment_index (s : EitSection) : Nat :=
  s.section_number / 8

def EitSection.section_index (s : EitSection) : Nat :=
  s.section_number % 8

def EitSection.last_section_index (s : EitSection) : Nat :=
  s.segment_last_section_number % 8

def EitSection.service_triple (s : EitSection) : ServiceTriple :=
  ⟨s.original_network_id, s.transport_stream_id, s.service_id⟩

/-- `EpgSection` in epg.rs. -/
structure EpgSection where
  version : Nat
  events : List EitEvent
deriving DecidableEq, Repr

/-- `impl From<EitSection> for EpgSection`. -/
def EpgSection.ofEitSection (s : EitSection) : EpgSection :=
  ⟨s.version_number, s.events⟩

/-- `EpgSegment` in epg.rs: `sections: [Option<EpgSection>; 8]`.
The length-8 invariant is carried separately. -/
structure EpgSegment where
  sections : List (Option EpgSection)
deriving DecidableEq, Repr

def EpgSegment.default : EpgSegment :=
  ⟨List.replicate 8 none⟩

/-- `EpgSegment::update`: the Rust loop `for i in n..8 { sections[i] = None }`
followed by `sections[section_index] = Some(section.into())`. -/
def EpgSegment.update (seg : EpgSegment) (sec : EitSection) : EpgSegment :=
  let n := sec.last_section_index + 1
  let cleared := (List.range' n (8 - n)).foldl (fun l i => l.set i none) seg.sections
  ⟨cleared.set sec.section_index (some (EpgSection.ofEitSection sec))⟩

/-- `EpgTable` in epg.rs: `segments: [EpgSegment; 32]`. -/
structure EpgTable where
  segments : List EpgSegment
deriving DecidableEq, Repr

def EpgTable.default : EpgTable :=
  ⟨List.replicate 32 EpgSegment.default⟩

/-- `EpgTable::update`: `self.segments[i].update(section)` where
`i = section.segment_index()`; `none` models the index panic (which
cannot fire on length-32 tables, since `section_number : u8`). -/
def EpgTable.update (t : EpgTable) (sec : EitSection) : Option EpgTable :=
  match t.segments[sec.segment_index]? with
  | none => none
  | some seg => some ⟨t.segments.set sec.segment_index (seg.update sec)⟩

/-- `EpgSchedule` in epg.rs.  `updated_at` is a JST timestamp in
milliseconds. -/
structure EpgSchedule where
  service_triple : ServiceTriple
  tables : List (Option EpgTable)
  overnight_events : List EitEvent
  updated_at : Int
deriving DecidableEq, Repr

/-- `EpgSchedule::new`.  In Rust `updated_at` is `Jst::now()`; the model
takes the current time as a parameter. -/
def EpgSchedule.new (triple : ServiceTriple) (now : Int) : EpgSchedule :=
  { service_triple := triple
    tables := List.replicate 32 none
    overnight_events := []
    updated_at := now }

/-- `EpgSchedule::update`: route to `tables[section.table_index()]`,
allocating the slot on demand, then update that table.  `none` models
the panics on `table_id` outside `[0x50, 0x6F]` and on a bad segment
index. -/
def EpgSchedule.update (s : EpgSchedule) (sec : EitSection) : Option EpgSchedule :=
  match sec.table_index with
  | none => none
  | some i =>
    match s.tables[i]? with
    | none => none
    | some slot =>
      match (slot.getD EpgTable.default).update sec with
      | none => none
      | some t2 => some { s with tables := s.tables.set i (some t2) }

/-- `EpgSection::collect_overnight_events`. -/
def EpgSection.collect_overnight_events (s : EpgSection) (midnight : Int)
    (events : List EitEvent) : List EitEvent :=
  s.events.foldl
    (fun acc e => if e.is_overnight_event midnight then acc ++ [e] else acc)
    events

/-- `EpgSegment::collect_overnight_events`. -/
def EpgSegment.collect_overnight_events (seg : EpgSegment) (midnight : Int)
    (events : List EitEvent) : List EitEvent :=
  seg.sections.foldl
    (fun acc sec =>
      match sec with
      | none => acc
      | some sec => sec.collect_overnight_events midnight acc)
    events

/-- `EpgTable::collect_overnight_events`. -/
def EpgTable.collect_overnight_events (t : EpgTable) (midnight : Int)
    (events : List EitEvent) : List EitEvent :=
  t.segments.foldl
    (fun acc seg => seg.collect_overnight_events midnight acc)
    events

/-- `EpgSchedule::save_overnight_events`. -/
def EpgSchedule.save_overnight_events (s : EpgSchedule) (midnight : Int) :
    EpgSchedule :=
  let events := s.tables.foldl
    (fun acc slot =>
      match slot with
      | none => acc
      | some t => t.collect_overnight_events midnight acc)
    []
  { s with overnight_events := events }

/-- Executable well-formedness of an `EpgTable`: what the Rust types
`[EpgSegment; 32]` and `[Option<EpgSection>; 8]` guarantee. -/
def EpgTable.wf (t : EpgTable) : Bool :=
  t.segments.length == 32 && t.segments.all (fun seg => seg.sections.length == 8)

/-- Executable well-formedness of an `EpgSchedule`: what the Rust type
`[Option<Box<EpgTable>>; 32]` guarantees. -/
def EpgSchedule.wf (s : EpgSchedule) : Bool :=
  s.tables.length == 32 && s.tables.all (fun slot =>
    match slot with
    | none => true
    | some t => t.wf)

/-- An EIT section with `section_index = 1 > 0 = last_section_index`
(the shape used by the `test_epg_segment_update` source test, with
`segment_last_section_number` lowered to 0). -/
def eitSecIdx1Last0 : EitSection :=
  { original_network_id := 1
    transport_stream_id := 2
    service_id := 3
    table_id := 0x50
    section_number := 0x01
    last_section_number := 0xF8
    segment_last_section_number := 0x00
    version_number := 1
    events := [] }

/-- An EIT section with the shape of the first update in the
`test_epg_segment_update` source test. -/
def eitSecIdx1Last1 : EitSection :=
  { eitSecIdx1Last0 with segment_last_section_number := 0x01 }

/-- An EIT section with `section_number = 0`, `table_id = 0x50`
(`test_epg_schedule_update` source test). -/
def eitSecTid50 : EitSection :=
  { eitSecIdx1Last0 with section_number := 0x00 }

/-- An EIT section whose `table_id` is below the `[0x50, 0x6F]` range. -/
def eitSecTid4F : EitSection :=
  { eitSecIdx1Last0 with table_id := 0x4F }

/-- An EIT section whose `table_id` is above the `[0x50, 0x6F]` range. -/
def eitSecTid70 : EitSection :=
  { eitSecIdx1Last0 with table_id := 0x70 }

/-! ## Tuner data model (tuner.rs) -/

/-- Modelled from the spec: `ChannelType` lives in `models.rs`, which is
not under `src/`.  The spec speaks of "GR/BS/other" channel types; only
equality of channel types matters to the tuner manager. -/
inductive ChannelType where
  | GR
  | BS
  | CS
  | SKY
deriving DecidableEq, Repr

/-- Modelled from the spec: the error kinds of `command_util::Error`
(`command_util.rs` is not under `src/`); the spec and the source tests
name `UnableToParse` and `UnableToSpawn`. -/
inductive CommandError where
  | UnableToParse
  | UnableToSpawn
deriving DecidableEq, Repr

/-- Modelled from the spec: the error kinds of §7 (`error.rs` is not
under `src/`); only the kinds reached by the tuner manager are needed. -/
inductive Error where
  | TunerUnavailable
  | SessionNotFound
  | CommandFailed (e : CommandError)
deriving DecidableEq, Repr

/-- Modelled from the spec: `TunerUserPriority` is an `i32` with the
sentinel `GRAB = i32::MAX` (`models.rs` is not under `src/`). -/
def TunerUserPriority.GRAB : Int := 2147483647

def TunerUserPriority.is_grab (p : Int) : Bool :=
  p == TunerUserPriority.GRAB

/-- `TunerSessionId` in tuner.rs; `Default` derives to all zeros. -/
structure TunerSessionId where
  tuner_index : Nat
  tuner_pid : Nat
deriving DecidableEq, Repr

def TunerSessionId.default : TunerSessionId := ⟨0, 0⟩

/-- `TunerSubscriptionId` in tuner.rs. -/
structure TunerSubscriptionId where
  session_id : TunerSessionId
  serial_number : Nat
deriving DecidableEq, Repr

def TunerSubscriptionId.default : TunerSubscriptionId := ⟨TunerSessionId.default, 0⟩

/-- Modelled from the spec: `TunerUserInfo` lives in `models.rs`; the
spec gives `info ∈ \{Web\{remote,agent\}, Job\{name\}, Tracker\{stream_id\}\}`. -/
inductive TunerUserInfo where
  | Web (remote : Option String) (agent : Option String)
  | Job (name : String)
  | Tracker (stream_id : TunerSubscriptionId)
deriving DecidableEq, Repr

structure TunerUser where
  info : TunerUserInfo
  priority : Int
deriving DecidableEq, Repr

/-- The two external effects of tuner activation: mustache template
rendering (`Tuner::make_command`) and `command_util::spawn_process`
(inside `TunerSession::new`).  Both live outside `src/`, so they are
kept abstract; `spawn_process` returns the child pid on success. -/
structure CommandEnv where
  render : String → ChannelType → String → Except Error String
  spawn_process : String → Except Error Nat

/-- `TunerSession` in tuner.rs.  The child-process handle and the
broadcaster address carry no tuner-manager-visible state beyond the
pid already stored in `id`, so they are not modelled.  The
`subscribers: HashMap<u32, TunerUser>` is modelled as an association
list. -/
structure TunerSession where
  id : TunerSessionId
  channel_type : ChannelType
  channel : String
  command : String
  subscribers : List (Nat × TunerUser)
  next_serial_number : Nat
deriving DecidableEq, Repr

/-- `HashMap::insert` on the subscriber map. -/
def subscribersInsert (k : Nat) (v : TunerUser) (m : List (Nat × TunerUser)) :
    List (Nat × TunerUser) :=
  if m.any (fun p => p.1 == k) then
    m.map (fun p => if p.1 == k then (k, v) else p)
  else m ++ [(k, v)]

/-- `HashMap::remove` on the subscriber map. -/
def subscribersRemove (k : Nat) (m : List (Nat × TunerUser)) :
    List (Nat × TunerUser) :=
  m.filter (fun p => p.1 != k)

/-- `TunerSession::new`: spawn the process, then build the session with
an empty subscriber map and `next_serial_number = 1`. -/
def TunerSession.new (env : CommandEnv) (tuner_index : Nat)
    (channel_type : ChannelType) (channel : String) (command : String) :
    Except Error TunerSession :=
  match env.spawn_process command with
  | .error e => .error e
  | .ok pid =>
    .ok { id := ⟨tuner_index, pid⟩
          channel_type := channel_type
          channel := channel
          command := command
          subscribers := []
          next_serial_number := 1 }

def TunerSession.is_reuseable (s : TunerSession) (channel_type : ChannelType)
    (channel : String) : Bool :=
  s.channel_type == channel_type && s.channel == channel

/-- `2^32`: the modulus of the `u32` subscription counter. -/
def u32Mod : Nat := 4294967296

/-- `TunerSession::subscribe`.  `next_serial_number` is a `u32`, so the
`+= 1` wraps around at `2^32` (release builds; debug builds panic
there), after which serial numbers repeat. -/
def TunerSession.subscribe (s : TunerSession) (user : TunerUser) :
    TunerSubscriptionId × TunerSession :=
  let serial_number := s.next_serial_number
  let id : TunerSubscriptionId := ⟨s.id, serial_number⟩
  (id, { s with
          next_serial_number := (s.next_serial_number + 1) % u32Mod
          subscribers := subscribersInsert serial_number user s.subscribers })

/-- `TunerSession::can_grab`. -/
def TunerSession.can_grab (s : TunerSession) (priority : Int) : Bool :=
  s.subscribers.all (fun p => decide (priority > p.2.priority))

/-- `TunerSession::stop_streaming`: reject a stale session id, else
remove the subscriber and return the remaining subscriber count. -/
def TunerSession.stop_streaming (s : TunerSession) (id : TunerSubscriptionId) :
    Except Error Nat × TunerSession :=
  if s.id ≠ id.session_id then (.error .SessionNotFound, s)
  else
    let s2 := { s with subscribers := subscribersRemove id.serial_number s.subscribers }
    (.ok s2.subscribers.length, s2)

/-- `TunerActivity` in tuner.rs. -/
inductive TunerActivity where
  | Inactive
  | Active (session : TunerSession)
deriving DecidableEq, Repr

/-- `TunerActivity::activate`; `none` models the
"Must be deactivated before activating" panic. -/
def TunerActivity.activate (a : TunerActivity) (env : CommandEnv)
    (tuner_index : Nat) (channel_type : ChannelType) (channel : String)
    (command : String) : Option (Except Error Unit × TunerActivity) :=
  match a with
  | .Inactive =>
    match TunerSession.new env tuner_index channel_type channel command with
    | .error e => some (.error e, .Inactive)
    | .ok session => some (.ok (), .Active session)
  | .Active _ => none

def TunerActivity.deactivate (_a : TunerActivity) : TunerActivity :=
  .Inactive

def TunerActivity.is_active (a : TunerActivity) : Bool :=
  match a with
  | .Inactive => false
  | .Active _ => true

def TunerActivity.is_inactive (a : TunerActivity) : Bool :=
  !a.is_active

def TunerActivity.is_reuseable (a : TunerActivity) (channel_type : ChannelType)
    (channel : String) : Bool :=
  match a with
  | .Inactive => false
  | .Active session => session.is_reuseable channel_type channel

/-- `TunerActivity::subscribe`; `none` models the
"Must be activated before subscribing" panic. -/
def TunerActivity.subscribe (a : TunerActivity) (user : TunerUser) :
    Option (TunerSubscriptionId × TunerActivity) :=
  match a with
  | .Inactive => none
  | .Active session =>
    let r := session.subscribe user
    some (r.1, .Active r.2)

def TunerActivity.stop_streaming (a : TunerActivity) (id : TunerSubscriptionId) :
    Except Error Nat × TunerActivity :=
  match a with
  | .Inactive => (.error .SessionNotFound, .Inactive)
  | .Active session =>
    let r := session.stop_streaming id
    (r.1, .Active r.2)

def TunerActivity.can_grab (a : TunerActivity) (priority : Int) : Bool :=
  match a with
  | .Inactive => true
  | .Active session => session.can_grab priority

/-- `TunerConfig` (config.rs is not under `src/`; fields per the source
test helper `create_config`). -/
structure TunerConfig where
  name : String
  channel_types : List ChannelType
  command : String
  disabled : Bool
deriving DecidableEq, Repr

/-- `Tuner` in tuner.rs. -/
structure Tuner where
  index : Nat
  name : String
  channel_types : List ChannelType
  command : String
  activity : TunerActivity
deriving DecidableEq, Repr

/-- `Tuner::new`. -/
def Tuner.new (index : Nat) (config : TunerConfig) : Tuner :=
  { index := index
    name := config.name
    channel_types := config.channel_types
    command := config.command
    activity := .Inactive }

def Tuner.is_active (t : Tuner) : Bool :=
  t.activity.is_active

def Tuner.is_available (t : Tuner) : Bool :=
  t.activity.is_inactive

def Tuner.is_supported_type (t : Tuner) (channel_type : ChannelType) : Bool :=
  t.channel_types.contains channel_type

def Tuner.is_available_for (t : Tuner) (channel_type : ChannelType) : Bool :=
  t.is_available && t.is_supported_type channel_type

def Tuner.is_reuseable (t : Tuner) (channel_type : ChannelType)
    (channel : String) : Bool :=
  t.activity.is_reuseable channel_type channel

def Tuner.can_grab (t : Tuner) (priority : Int) : Bool :=
  TunerUserPriority.is_grab priority || t.activity.can_grab priority

/-- `Tuner::make_command` (mustache rendering, via the environment). -/
def Tuner.make_command (t : Tuner) (env : CommandEnv)
    (channel_type : ChannelType) (channel : String) : Except Error String :=
  env.render t.command channel_type channel

/-- `Tuner::activate`: render the command template, then activate the
activity.  On error the `?` operator returns early and the tuner is
unchanged. -/
def Tuner.activate (t : Tuner) (env : CommandEnv) (channel_type : ChannelType)
    (channel : String) : Option (Except Error Unit × Tuner) :=
  match t.make_command env channel_type channel with
  | .error e => some (.error e, t)
  | .ok command =>
    match t.activity.activate env t.index channel_type channel command with
    | none => none
    | some (r, a2) => some (r, { t with activity := a2 })

def Tuner.deactivate (t : Tuner) : Tuner :=
  { t with activity := t.activity.deactivate }

def Tuner.subscribe (t : Tuner) (user : TunerUser) :
    Option (TunerSubscriptionId × Tuner) :=
  match t.activity.subscribe user with
  | none => none
  | some (id, a2) => some (id, { t with activity := a2 })

/-- `Tuner::stop_streaming`: forward to the activity; if no users
remain, deactivate. -/
def Tuner.stop_streaming (t : Tuner) (id : TunerSubscriptionId) :
    Except Error Unit × Tuner :=
  match t.activity.stop_streaming id with
  | (.error e, a2) => (.error e, { t with activity := a2 })
  | (.ok num_users, a2) =>
    let t2 : Tuner := { t with activity := a2 }
    if num_users == 0 then (.ok (), t2.deactivate) else (.ok (), t2)

/-- The list of current subscribers of a tuner (empty when inactive). -/
def Tuner.subscriber_users (t : Tuner) : List TunerUser :=
  match t.activity with
  | .Inactive => []
  | .Active session => session.subscribers.map (fun p => p.2)

/-- Apply `f` to the first tuner satisfying `p`, replacing it in the
list — the shape of `self.tuners.iter_mut().find(...)` followed by a
mutation of the found tuner.  The outer `Option` models a panic inside
`f`; the inner `Option` is `none` when no tuner matches. -/
def updateFirst (p : Tuner → Bool)
    (f : Tuner → Option (Except Error TunerSubscriptionId × Tuner)) :
    List Tuner → Option (Option (Except Error TunerSubscriptionId × List Tuner))
  | [] => some none
  | t :: ts =>
    if p t then
      match f t with
      | none => none
      | some (r, t2) => some (some (r, t2 :: ts))
    else
      match updateFirst p f ts with
      | none => none
      | some none => some none
      | some (some (r, ts2)) => some (some (r, t :: ts2))

/-- Per-tuner action of the reuse branch: subscribe only. -/
def subscribeAction (user : TunerUser) (t : Tuner) :
    Option (Except Error TunerSubscriptionId × Tuner) :=
  match t.subscribe user with
  | none => none
  | some (id, t2) => some (.ok id, t2)

/-- Per-tuner action of the free branch:
`tuner.activate(channel_type, channel)?` then subscribe. -/
def activateSubscribeAction (env : CommandEnv) (channel_type : ChannelType)
    (channel : String) (user : TunerUser) (t : Tuner) :
    Option (Except Error TunerSubscriptionId × Tuner) :=
  match t.activate env channel_type channel with
  | none => none
  | some (.error e, t2) => some (.error e, t2)
  | some (.ok _, t2) => subscribeAction user t2

/-- Per-tuner action of the grab branch: deactivate, then activate and
subscribe. -/
def grabAction (env : CommandEnv) (channel_type : ChannelType)
    (channel : String) (user : TunerUser) (t : Tuner) :
    Option (Except Error TunerSubscriptionId × Tuner) :=
  activateSubscribeAction env channel_type channel user t.deactivate

/-- `TunerManager::activate_tuner`, state-passing over the tuner
vector.  The outer `Option` models panics (out-of-bounds tracker index,
subscribing an inactive tuner). -/
def TunerManager.activate_tuner (env : CommandEnv) (tuners : List Tuner)
    (channel_type : ChannelType) (channel : String) (user : TunerUser) :
    Option (Except Error TunerSubscriptionId × List Tuner) :=
  match user.info with
  | .Tracker stream_id =>
    match tuners[stream_id.session_id.tuner_index]? with
    | none => none
    | some tuner =>
      if tuner.is_active then
        match tuner.subscribe user with
        | none => none
        | some (id, t2) =>
          some (.ok id, tuners.set stream_id.session_id.tuner_index t2)
      else some (.error .TunerUnavailable, tuners)
  | _ =>
    match updateFirst (fun tuner => tuner.is_reuseable channel_type channel)
        (subscribeAction user) tuners with
    | none => none
    | some (some (r, tuners2)) => some (r, tuners2)
    | some none =>
      match updateFirst (fun tuner => tuner.is_available_for channel_type)
          (activateSubscribeAction env channel_type channel user) tuners with
      | none => none
      | some (some (r, tuners2)) => some (r, tuners2)
      | some none =>
        match updateFirst
            (fun tuner => tuner.is_supported_type channel_type
              && tuner.can_grab user.priority)
            (grabAction env channel_type channel user) tuners with
        | none => none
        | some (some (r, tuners2)) => some (r, tuners2)
        | some none => some (.error .TunerUnavailable, tuners)

/-- The §4.3 selection policy, written from the spec text: (1) a
Tracker user pins to its tuner index and never allocates; (2) reuse the
first *active* tuner whose `(channel_type, channel)` exactly match the
session; (3) activate the first *inactive* tuner supporting the channel
type; (4) grab the first supporting tuner where
`can_grab(user.priority)` holds — deactivate, reactivate with the new
channel, subscribe; (5) otherwise `TunerUnavailable`. -/
def TunerManager.selection_policy (env : CommandEnv) (tuners : List Tuner)
    (channel_type : ChannelType) (channel : String) (user : TunerUser) :
    Option (Except Error TunerSubscriptionId × List Tuner) :=
  match user.info with
  | .Tracker stream_id =>
    match tuners[stream_id.session_id.tuner_index]? with
    | none => none
    | some tuner =>
      if tuner.is_active then
        match tuner.subscribe user with
        | none => none
        | some (id, t2) =>
          some (.ok id, tuners.set stream_id.session_id.tuner_index t2)
      else some (.error .TunerUnavailable, tuners)
  | _ =>
    match updateFirst
        (fun tuner =>
          match tuner.activity with
          | .Inactive => false
          | .Active session =>
            session.channel_type == channel_type && session.channel == channel)
        (subscribeAction user) tuners with
    | none => none
    | some (some (r, tuners2)) => some (r, tuners2)
    | some none =>
      match updateFirst
          (fun tuner => !tuner.is_active && tuner.channel_types.contains channel_type)
          (activateSubscribeAction env channel_type channel user) tuners with
      | none => none
      | some (some (r, tuners2)) => some (r, tuners2)
      | some none =>
        match updateFirst
            (fun tuner => tuner.channel_types.contains channel_type
              && tuner.can_grab user.priority)
            (grabAction env channel_type channel user) tuners with
        | none => none
        | some (some (r, tuners2)) => some (r, tuners2)
        | some none => some (.error .TunerUnavailable, tuners)

/-- Iterated `TunerSession::subscribe`: returns the serial numbers
handed out, in call order. -/
def TunerSession.subscribe_list (s : TunerSession) :
    List TunerUser → TunerSession × List Nat
  | [] => (s, [])
  | u :: us =>
    let r := s.subscribe u
    let rest := r.2.subscribe_list us
    (rest.1, r.1.serial_number :: rest.2)

/-- Modelled from the spec: a concrete `CommandEnv`.  Rendering a
template without mustache variables is the identity; per the source
tests, spawning `cmd \x27` (unmatched quote) fails with
`UnableToParse`, spawning `no-such-command` fails with
`UnableToSpawn`, and `true` spawns fine. -/
def badParseCommand : String := "cmd " ++ String.mk [Char.ofNat 39]

def modelEnv : CommandEnv :=
  { render := fun command _ _ => .ok command
    spawn_process := fun command =>
      if command = badParseCommand then .error (.CommandFailed .UnableToParse)
      else if command = "no-such-command" then .error (.CommandFailed .UnableToSpawn)
      else .ok 10 }

/-- The source-test tuner config builder (`create_config`). -/
def create_config (command : String) : TunerConfig :=
  { name := ""
    channel_types := [.GR]
    command := command
    disabled := false }

/-- The source-test user builder (`create_user`). -/
def create_user (priority : Int) : TunerUser :=
  { info := .Job "test", priority := priority }

/-- A session with two subscribers of priorities 0 and 1 (the
`test_tuner_can_grab` source-test scenario after two subscriptions). -/
def sessionP01 : TunerSession :=
  { id := ⟨0, 10⟩
    channel_type := .GR
    channel := "1"
    command := "true"
    subscribers := [(1, create_user 0), (2, create_user 1)]
    next_serial_number := 3 }

def tunerP01 : Tuner :=
  { index := 0
    name := ""
    channel_types := [.GR]
    command := "true"
    activity := .Active sessionP01 }

/-- An active session that has lost all its subscribers. -/
def emptySession : TunerSession :=
  { id := ⟨0, 10⟩
    channel_type := .GR
    channel := "1"
    command := "true"
    subscribers := []
    next_serial_number := 2 }

def emptyTuner : Tuner :=
  { index := 0
    name := ""
    channel_types := [.GR]
    command := "true"
    activity := .Active emptySession }

/-- An active session with a single real subscriber (serial 1), as in
the `test_tuner_stop_streaming` source test. -/
def sessionOneSub : TunerSession :=
  { id := ⟨0, 10⟩
    channel_type := .GR
    channel := ""
    command := "true"
    subscribers := [(1, create_user 0)]
    next_serial_number := 2 }

def tunerOneSub : Tuner :=
  { index := 0
    name := ""
    channel_types := [.GR]
    command := "true"
    activity := .Active sessionOneSub }

def realSubId : TunerSubscriptionId := ⟨⟨0, 10⟩, 1⟩

def tunerBadParse : Tuner := Tuner.new 0 (create_config badParseCommand)

def tunerBadSpawn : Tuner := Tuner.new 0 (create_config "no-such-command")

/-- The session produced by `TunerSession::new` under `modelEnv` with
command `true` (pid 10). -/
def sessionFresh : TunerSession :=
  { id := ⟨0, 10⟩
    channel_type := .GR
    channel := "1"
    command := "true"
    subscribers := []
    next_serial_number := 1 }

/-! ## EPG periodic driver state (epg.rs) -/

/-- `EpgChannel` in epg.rs. -/
structure EpgChannel where
  name : String
  channel_type : ChannelType
  channel : String
  excluded_services : List Nat
deriving DecidableEq, Repr

/-- `EpgService` in epg.rs. -/
structure EpgService where
  nid : Nat
  tsid : Nat
  sid : Nat
  service_type : Nat
  logo_id : Int
  remote_control_key_id : Nat
  name : String
  channel : EpgChannel
deriving DecidableEq, Repr

/-- `ServiceTriple::from((service.nid, service.tsid, service.sid))`. -/
def EpgService.triple (sv : EpgService) : ServiceTriple :=
  ⟨sv.nid, sv.tsid, sv.sid⟩

/-- One day in milliseconds. -/
def dayMillis : Int := 86400000

/-- `timestamp.date().and_hms(0, 0, 0)`: the midnight starting the day
that contains `timestamp` (timestamps count milliseconds from a JST
day boundary; `Int./` is Euclidean, so this floors for the positive
divisor). -/
def midnightOf (timestamp : Int) : Int :=
  timestamp / dayMillis * dayMillis

/-- The parts of the `Epg` actor state that `prepare_schedules`
touches (the cache directory, tool commands, channel list and
`max_elapsed` play no role in it).  The
`HashMap<ServiceTriple, EpgSchedule>` is modelled as an association
list. -/
structure Epg where
  services : List EpgService
  schedules : List (ServiceTriple × EpgSchedule)
deriving DecidableEq, Repr

/-- `HashMap::entry(k).and_modify(f).or_insert(v0)`. -/
def schedulesUpsert (m : List (ServiceTriple × EpgSchedule)) (k : ServiceTriple)
    (f : EpgSchedule → EpgSchedule) (v0 : EpgSchedule) :
    List (ServiceTriple × EpgSchedule) :=
  if m.any (fun e => e.1 == k) then
    m.map (fun e => if e.1 == k then (k, f e.2) else e)
  else m ++ [(k, v0)]

/-- `HashMap` lookup. -/
def schedulesLookup : List (ServiceTriple × EpgSchedule) → ServiceTriple →
    Option EpgSchedule
  | [], _ => none
  | e :: m, k => if e.1 == k then some e.2 else schedulesLookup m k

/-- The `and_modify` closure of `prepare_schedules`: save overnight
events when the schedule was last touched before `midnight`, then
stamp it with `timestamp`. -/
def prepareModify (midnight timestamp : Int) (sched : EpgSchedule) :
    EpgSchedule :=
  let sched2 := if sched.updated_at < midnight
    then sched.save_overnight_events midnight else sched
  { sched2 with updated_at := timestamp }

/-- `Epg::prepare_schedules(timestamp)`: upsert a schedule per service
(`and_modify` on hits, `or_insert(EpgSchedule::new)` on misses — in
Rust the freshly inserted schedule is stamped by a second `Jst::now()`
call, identified with `timestamp` here), then drop the schedules whose
triple matches no service. -/
def Epg.prepare_schedules (epg : Epg) (timestamp : Int) : Epg :=
  let midnight := midnightOf timestamp
  let schedules := epg.services.foldl
    (fun m service =>
      schedulesUpsert m service.triple (prepareModify midnight timestamp)
        (EpgSchedule.new service.triple timestamp))
    epg.schedules
  let unused_ids := (epg.schedules.map (fun e => e.1)).filter
    (fun id => !(epg.services.any (fun sv => sv.triple == id)))
  { epg with schedules :=
      schedules.filter (fun e => !(unused_ids.contains e.1)) }

/-- A pre-existing schedule last touched at time 0 (a day before the
witness timestamp). -/
def schedOld : EpgSchedule :=
  { service_triple := ⟨1, 2, 3⟩
    tables := List.replicate 32 none
    overnight_events := []
    updated_at := 0 }

def svc123 : EpgService :=
  { nid := 1
    tsid := 2
    sid := 3
    service_type := 1
    logo_id := 0
    remote_control_key_id := 0
    name := "Service"
    channel := { name := "Ch"
                 channel_type := .GR
                 channel := "ch"
                 excluded_services := [] } }

def svc456 : EpgService :=
  { svc123 with nid := 4, tsid := 5, sid := 6 }

/-- Services (1,2,3) and (4,5,6); schedules for (1,2,3) (stale) and
(9,9,9) (garbage, its service is gone). -/
def epgTest : Epg :=
  { services := [svc123, svc456]
    schedules := [(⟨1, 2, 3⟩, schedOld), (⟨9, 9, 9⟩, EpgSchedule.new ⟨9, 9, 9⟩ 0)] }

/-! ## JSON serialization of schedules (serde derive on EpgSchedule) -/

/-- A JSON value.  Numbers are integers: every numeric field of the
schedule types is an integer (`u8`/`u16` ids, millisecond timestamps
and durations). -/
inductive Json where
  | null
  | bool (b : Bool)
  | num (n : Int)
  | str (s : String)
  | arr (elems : List Json)
  | obj (fields : List (String × Json))

def natJson (n : Nat) : Json :=
  .num (Int.ofNat n)

/-- Deserializing an unsigned integer: rejects negatives. -/
def decodeNat : Json → Option Nat
  | .num (.ofNat n) => some n
  | _ => none

def decodeInt : Json → Option Int
  | .num n => some n
  | _ => none

def decodeBool : Json → Option Bool
  | .bool b => some b
  | _ => none

def decodeStr : Json → Option String
  | .str s => some s
  | _ => none

/-- Modelled from the spec: `serde_jst` and `serde_duration_in_millis`
live in `datetime_ext.rs`, which is not under `src/`; timestamps and
durations are serialized as integer milliseconds. -/
def jstJson (t : Int) : Json :=
  .num t

/-- `Option<T>` serializes as `null` / the value. -/
def optJson (f : α → Json) : Option α → Json
  | none => .null
  | some x => f x

def decodeOpt (f : Json → Option α) : Json → Option (Option α)
  | .null => some none
  | j => (f j).map some

/-- Element-wise deserialization of a JSON array body. -/
def decodeList (f : Json → Option α) : List Json → Option (List α)
  | [] => some []
  | x :: xs => do
    let a ← f x
    let r ← decodeList f xs
    pure (a :: r)

def decodeArr (f : Json → Option α) : Json → Option (List α)
  | .arr xs => decodeList f xs
  | _ => none

/-- Modelled from the spec: `ServiceTriple` (in `models.rs`, not under
`src/`) is the tuple `(network_id, ts_id, service_id)` and serializes
as a 3-element array. -/
def ServiceTriple.toJson (t : ServiceTriple) : Json :=
  .arr [natJson t.nid, natJson t.tsid, natJson t.sid]

def ServiceTriple.fromJson : Json → Option ServiceTriple
  | .arr [a, b, c] =>
    (decodeNat a).bind fun nid =>
    (decodeNat b).bind fun tsid =>
    (decodeNat c).map fun sid => ⟨nid, tsid, sid⟩
  | _ => none

/-- A genre nibble quadruple serializes as a 4-element array. -/
def nibbleJson (x : Nat × Nat × Nat × Nat) : Json :=
  .arr [natJson x.1, natJson x.2.1, natJson x.2.2.1, natJson x.2.2.2]

def decodeNibble : Json → Option (Nat × Nat × Nat × Nat)
  | .arr [a, b, c, d] =>
    (decodeNat a).bind fun a2 =>
    (decodeNat b).bind fun b2 =>
    (decodeNat c).bind fun c2 =>
    (decodeNat d).map fun d2 => (a2, b2, c2, d2)
  | _ => none

/-- An extended-event item `(String, String)` serializes as a pair
array. -/
def itemJson (x : String × String) : Json :=
  .arr [.str x.1, .str x.2]

def decodeItem : Json → Option (String × String)
  | .arr [.str a, .str b] => some (a, b)
  | _ => none

/-- `EitDescriptor` serializes with serde tag `$type` and camelCase
field names, fields in declaration order. -/
def EitDescriptor.toJson : EitDescriptor → Json
  | .ShortEvent event_name text =>
    .obj [("$type", .str "ShortEvent"), ("eventName", .str event_name),
          ("text", .str text)]
  | .Component stream_content component_type =>
    .obj [("$type", .str "Component"), ("streamContent", natJson stream_content),
          ("componentType", natJson component_type)]
  | .AudioComponent component_type sampling_rate =>
    .obj [("$type", .str "AudioComponent"),
          ("componentType", natJson component_type),
          ("samplingRate", natJson sampling_rate)]
  | .Content nibbles =>
    .obj [("$type", .str "Content"), ("nibbles", .arr (nibbles.map nibbleJson))]
  | .ExtendedEvent items =>
    .obj [("$type", .str "ExtendedEvent"), ("items", .arr (items.map itemJson))]

def EitDescriptor.fromJson : Json → Option EitDescriptor
  | .obj [("$type", .str "ShortEvent"), ("eventName", nj), ("text", tj)] =>
    (decodeStr nj).bind fun event_name =>
    (decodeStr tj).map fun text => .ShortEvent event_name text
  | .obj [("$type", .str "Component"), ("streamContent", scj),
      ("componentType", ctj)] =>
    (decodeNat scj).bind fun stream_content =>
    (decodeNat ctj).map fun component_type =>
      .Component stream_content component_type
  | .obj [("$type", .str "AudioComponent"), ("componentType", ctj),
      ("samplingRate", srj)] =>
    (decodeNat ctj).bind fun component_type =>
    (decodeNat srj).map fun sampling_rate =>
      .AudioComponent component_type sampling_rate
  | .obj [("$type", .str "Content"), ("nibbles", nj)] =>
    (decodeArr decodeNibble nj).map fun nibbles => .Content nibbles
  | .obj [("$type", .str "ExtendedEvent"), ("items", ij)] =>
    (decodeArr decodeItem ij).map fun items => .ExtendedEvent items
  | _ => none

/-- `EitEvent` with camelCase keys in declaration order. -/
def EitEvent.toJson (e : EitEvent) : Json :=
  .obj [("eventId", natJson e.event_id), ("startTime", jstJson e.start_time),
        ("duration", .num e.duration), ("scrambled", .bool e.scrambled),
        ("descriptors", .arr (e.descriptors.map EitDescriptor.toJson))]

def EitEvent.fromJson : Json → Option EitEvent
  | .obj [("eventId", idj), ("startTime", stj), ("duration", duj),
      ("scrambled", scj), ("descriptors", dj)] =>
    (decodeNat idj).bind fun event_id =>
    (decodeInt stj).bind fun start_time =>
    (decodeInt duj).bind fun duration =>
    (decodeBool scj).bind fun scrambled =>
    (decodeArr EitDescriptor.fromJson dj).map fun descriptors =>
      ⟨event_id, start_time, duration, scrambled, descriptors⟩
  | _ => none

def EpgSection.toJson (s : EpgSection) : Json :=
  .obj [("version", natJson s.version),
        ("events", .arr (s.events.map EitEvent.toJson))]

def EpgSection.fromJson : Json → Option EpgSection
  | .obj [("version", vj), ("events", ej)] =>
    (decodeNat vj).bind fun version =>
    (decodeArr EitEvent.fromJson ej).map fun events => ⟨version, events⟩
  | _ => none

/-- `[Option<EpgSection>; 8]` serializes as an 8-element array of
null-or-object; deserialization requires exactly 8 elements. -/
def EpgSegment.toJson (seg : EpgSegment) : Json :=
  .obj [("sections", .arr (seg.sections.map (optJson EpgSection.toJson)))]

def EpgSegment.fromJson : Json → Option EpgSegment
  | .obj [("sections", .arr xs)] =>
    if xs.length = 8 then
      (decodeList (decodeOpt EpgSection.fromJson) xs).map fun sections =>
        ⟨sections⟩
    else none
  | _ => none

/-- `[EpgSegment; 32]`: exactly 32 elements. -/
def EpgTable.toJson (t : EpgTable) : Json :=
  .obj [("segments", .arr (t.segments.map EpgSegment.toJson))]

def EpgTable.fromJson : Json → Option EpgTable
  | .obj [("segments", .arr xs)] =>
    if xs.length = 32 then
      (decodeList EpgSegment.fromJson xs).map fun segments => ⟨segments⟩
    else none
  | _ => none

/-- `EpgSchedule` with camelCase keys in declaration order;
`tables: [Option<Box<EpgTable>>; 32]` (the `Box` is transparent to
serde) requires exactly 32 elements. -/
def EpgSchedule.toJson (s : EpgSchedule) : Json :=
  .obj [("serviceTriple", s.service_triple.toJson),
        ("tables", .arr (s.tables.map (optJson EpgTable.toJson))),
        ("overnightEvents", .arr (s.overnight_events.map EitEvent.toJson)),
        ("updatedAt", jstJson s.updated_at)]

def EpgSchedule.fromJson : Json → Option EpgSchedule
  | .obj [("serviceTriple", stj), ("tables", .arr tjs),
      ("overnightEvents", oej), ("updatedAt", uaj)] =>
    if tjs.length = 32 then
      (ServiceTriple.fromJson stj).bind fun service_triple =>
      (decodeList (decodeOpt EpgTable.fromJson) tjs).bind fun tables =>
      (decodeArr EitEvent.fromJson oej).bind fun overnight_events =>
      (decodeInt uaj).map fun updated_at =>
        ⟨service_triple, tables, overnight_events, updated_at⟩
    else none
  | _ => none

/-- The schedules reachable from `EpgSchedule::new` by `update` and
`save_overnight_events` calls (an `update` that would panic yields no
reachable state). -/
inductive EpgSchedule.Reachable : EpgSchedule → Prop
  | new (triple : ServiceTriple) (now : Int) :
      Reachable (EpgSchedule.new triple now)
  | update (s s2 : EpgSchedule) (sec : EitSection) :
      Reachable s → s.update sec = some s2 → Reachable s2
  | save (s : EpgSchedule) (midnight : Int) :
      Reachable s → Reachable (s.save_overnight_events midnight)

/-! ## Theorems -/

theorem clearFold_length (ids : List Nat) (l : List (Option EpgSection)) :
    (ids.foldl (fun acc j => acc.set j none) l).length = l.length := by
  induction ids generalizing l with
  | nil => rfl
  | cons j ids ih => rw [List.foldl_cons, ih, List.length_set]

theorem clearFold_getElem? (ids : List Nat) (l : List (Option EpgSection)) (i : Nat) :
    (ids.foldl (fun acc j => acc.set j none) l)[i]? =
      if i ∈ ids ∧ i < l.length then some none else l[i]? := by
  induction ids generalizing l with
  | nil => simp
  | cons j ids ih =>
    rw [List.foldl_cons, ih]
    by_cases hij : i = j
    · subst hij
      by_cases hlt : i < l.length
      · have h2 : (l.set i none)[i]? = some none := List.getElem?_set_self hlt
        simp [List.length_set, hlt, h2]
      · have h1 : l[i]? = none := List.getElem?_eq_none (by omega)
        have h2 : (l.set i none)[i]? = none :=
          List.getElem?_eq_none (by rw [List.length_set]; omega)
        simp [List.length_set, hlt, h1, h2]
    · rw [List.getElem?_set_ne (fun h => hij h.symm)]
      simp [List.length_set, List.mem_cons, hij]

theorem mem_range'_iff (m s n : Nat) : m ∈ List.range' s n ↔ s ≤ m ∧ m < s + n := by
  rw [List.mem_range']
  constructor
  · rintro ⟨i, hi, rfl⟩; omega
  · intro h; exact ⟨m - s, by omega, by omega⟩

/-- C1 (amended): after `EpgSegment::update(section)` with
`L = segment_last_section_number % 8`, the slot at
`section_number % 8` holds the new section, and every other slot with
index in `[L+1, 8)` is `None`.  (The claim as frozen also asserts that
the slot at `section_number % 8` is `None` whenever
`section_number % 8 > L`, which the code refutes: the write of the new
section happens after the clearing loop.) -/
theorem segment_update_truncation (seg : EpgSegment) (sec : EitSection)
    (hlen : seg.sections.length = 8) :
    (seg.update sec).sections[sec.section_index]?
        = some (some (EpgSection.ofEitSection sec))
    ∧ ∀ i : Nat, sec.last_section_index + 1 ≤ i → i < 8 → i ≠ sec.section_index →
        (seg.update sec).sections[i]? = some none := by
  have hidx : sec.section_index < 8 := Nat.mod_lt _ (by decide)
  have hlast : sec.last_section_index < 8 := Nat.mod_lt _ (by decide)
  have hclen :
      ((List.range' (sec.last_section_index + 1) (8 - (sec.last_section_index + 1))).foldl
        (fun l i => l.set i none) seg.sections).length = 8 := by
    rw [clearFold_length]; exact hlen
  constructor
  · exact List.getElem?_set_self (by rw [hclen]; exact hidx)
  · intro i h1 h2 hne
    show ((_ : List (Option EpgSection)).set _ _)[i]? = some none
    rw [List.getElem?_set_ne (fun h => hne h.symm), clearFold_getElem?]
    have hmem : i ∈ List.range' (sec.last_section_index + 1)
        (8 - (sec.last_section_index + 1)) := by
      rw [mem_range'_iff]; omega
    rw [if_pos ⟨hmem, by omega⟩]

/-- C1 witness: the second update of the `test_epg_segment_update` source
test (`section_number = 0`, `segment_last_section_number = 0`): slot 0
holds the section and slot 1 is cleared. -/
theorem segment_update_truncation_witness :
    (EpgSegment.default.update eitSecTid50).sections[eitSecTid50.section_index]?
        = some (some (EpgSection.ofEitSection eitSecTid50))
    ∧ (EpgSegment.default.update eitSecTid50).sections[1]? = some none := by
  have h := segment_update_truncation EpgSegment.default eitSecTid50 (by decide)
  exact ⟨h.1, h.2 1 (by decide) (by decide) (by decide)⟩

/-- C1 counterexample: for `section_number = 1`,
`segment_last_section_number = 0`, the index 1 lies in `[L+1, 8)` with
`L = 0`, yet after the update slot 1 is *not* `None` — it holds the
freshly written section. -/
theorem segment_update_claim_counterexample :
    eitSecIdx1Last0.last_section_index + 1 ≤ 1 ∧ (1 : Nat) < 8
    ∧ (EpgSegment.default.update eitSecIdx1Last0).sections[1]? ≠ some none := by
  decide

theorem EpgTable.update_isSome (t : EpgTable) (sec : EitSection)
    (hlen : t.segments.length = 32) (hsn : sec.section_number < 256) :
    ∃ t2, t.update sec = some t2 := by
  have h : sec.segment_index < t.segments.length := by
    simp only [EitSection.segment_index]; omega
  simp only [EpgTable.update]
  rw [List.getElem?_eq_getElem h]
  exact ⟨_, rfl⟩

/-- C9: `EpgSchedule::update` computes its table slot index as
`table_id - 0x50` with no range check.  For `table_id ∈ [0x50, 0x6F]`
the index is in `[0, 32)` and the update is total, allocating the table
slot on demand; for `table_id` outside that range the operation panics
(`usize` underflow below `0x50`, out-of-bounds indexing above `0x6F`),
modelled as `none`. -/
theorem schedule_update_table_id_range (s : EpgSchedule) (sec : EitSection)
    (hwf : s.wf = true) (hsn : sec.section_number < 256) :
    (0x50 ≤ sec.table_id ∧ sec.table_id ≤ 0x6F →
        sec.table_id - 0x50 < 32
        ∧ ∃ s2, s.update sec = some s2
            ∧ ∃ t2, s2.tables[sec.table_id - 0x50]? = some (some t2))
    ∧ ((sec.table_id < 0x50 ∨ 0x6F < sec.table_id) → s.update sec = none) := by
  simp only [EpgSchedule.wf, Bool.and_eq_true, beq_iff_eq, List.all_eq_true] at hwf
  obtain ⟨hlen, hall⟩ := hwf
  constructor
  · rintro ⟨h50, h6F⟩
    have hi : sec.table_id - 0x50 < 32 := by omega
    have hilen : sec.table_id - 0x50 < s.tables.length := by omega
    refine ⟨hi, ?_⟩
    have hslot := List.getElem?_eq_getElem hilen
    have htbl : ((s.tables[sec.table_id - 0x50]).getD
        EpgTable.default).segments.length = 32 := by
      cases hmem : s.tables[sec.table_id - 0x50] with
      | none => decide
      | some t =>
        have hmm : some t ∈ s.tables := List.getElem?_mem (by rw [hslot, hmem])
        have hwft : t.wf = true := hall _ hmm
        simp only [EpgTable.wf, Bool.and_eq_true, beq_iff_eq, List.all_eq_true] at hwft
        exact hwft.1
    obtain ⟨t2, ht2⟩ := EpgTable.update_isSome _ sec htbl hsn
    refine ⟨{ s with tables := s.tables.set (sec.table_id - 0x50) (some t2) }, ?_, t2, ?_⟩
    · simp only [EpgSchedule.update, EitSection.table_index,
        if_neg (by omega : ¬ sec.table_id < 0x50)]
      rw [hslot]
      simp only [ht2]
    · exact List.getElem?_set_self hilen
  · intro h
    rcases h with h | h
    · simp only [EpgSchedule.update, EitSection.table_index, if_pos h]
    · have hnone : s.tables[sec.table_id - 0x50]? = none := List.getElem?_eq_none (by omega)
      simp only [EpgSchedule.update, EitSection.table_index,
        if_neg (by omega : ¬ sec.table_id < 0x50)]
      rw [hnone]

/-- C9 witness: updating a fresh schedule with `table_id = 0x50`
succeeds and allocates table slot 0, while `table_id = 0x4F` and
`table_id = 0x70` panic. -/
theorem schedule_update_table_id_range_witness :
    (∃ s2, (EpgSchedule.new ⟨1, 2, 3⟩ 0).update eitSecTid50 = some s2
        ∧ ∃ t2, s2.tables[eitSecTid50.table_id - 0x50]? = some (some t2))
    ∧ (EpgSchedule.new ⟨1, 2, 3⟩ 0).update eitSecTid4F = none
    ∧ (EpgSchedule.new ⟨1, 2, 3⟩ 0).update eitSecTid70 = none := by
  refine ⟨?_, ?_, ?_⟩
  · exact (((schedule_update_table_id_range (EpgSchedule.new ⟨1, 2, 3⟩ 0) eitSecTid50
      (by decide) (by decide)).1 (by decide)).2)
  · exact (schedule_update_table_id_range (EpgSchedule.new ⟨1, 2, 3⟩ 0) eitSecTid4F
      (by decide) (by decide)).2 (by decide)
  · exact (schedule_update_table_id_range (EpgSchedule.new ⟨1, 2, 3⟩ 0) eitSecTid70
      (by decide) (by decide)).2 (by decide)

theorem foldl_max_lt_iff (ps : List Int) (p0 p : Int) :
    ps.foldl max p0 < p ↔ p0 < p ∧ ∀ x ∈ ps, x < p := by
  induction ps generalizing p0 with
  | nil => simp
  | cons a ps ih =>
    rw [List.foldl_cons, ih, max_lt_iff]
    simp only [List.forall_mem_cons]
    tauto

/-- C2: for every tuner and priority `p`, `can_grab(p)` holds iff
`p = GRAB` or every current subscriber's priority is strictly below
`p`; equivalently, for an active session with subscriber priorities
`q0 :: qs`, iff `p = GRAB` or `p > max` of the priorities. -/
theorem tuner_can_grab_iff (t : Tuner) (p : Int) :
    (t.can_grab p = true ↔
      p = TunerUserPriority.GRAB ∨ ∀ u ∈ t.subscriber_users, u.priority < p)
    ∧ ∀ (s : TunerSession) (q0 : Int) (qs : List Int),
        t.activity = .Active s →
        s.subscribers.map (fun kv => kv.2.priority) = q0 :: qs →
        (t.can_grab p = true ↔
          p = TunerUserPriority.GRAB ∨ qs.foldl max q0 < p) := by
  have hmain : t.can_grab p = true ↔
      p = TunerUserPriority.GRAB ∨ ∀ u ∈ t.subscriber_users, u.priority < p := by
    cases ha : t.activity with
    | Inactive =>
      simp [Tuner.can_grab, TunerActivity.can_grab, ha, Tuner.subscriber_users,
        TunerUserPriority.is_grab]
    | Active s =>
      simp only [Tuner.can_grab, TunerActivity.can_grab, ha, Tuner.subscriber_users,
        TunerUserPriority.is_grab, TunerSession.can_grab, Bool.or_eq_true,
        beq_iff_eq, List.all_eq_true, decide_eq_true_eq, List.mem_map, gt_iff_lt]
      constructor
      · rintro (h | h)
        · exact Or.inl h
        · refine Or.inr ?_
          rintro u ⟨kv, hkv, rfl⟩
          exact h kv hkv
      · rintro (h | h)
        · exact Or.inl h
        · exact Or.inr fun kv hkv => h kv.2 ⟨kv, hkv, rfl⟩
  refine ⟨hmain, ?_⟩
  intro s q0 qs ha hmap
  rw [hmain]
  have husers : t.subscriber_users = s.subscribers.map (fun kv => kv.2) := by
    simp [Tuner.subscriber_users, ha]
  have hpri : t.subscriber_users.map (fun u => u.priority) = q0 :: qs := by
    rw [husers, List.map_map]
    exact hmap
  constructor
  · rintro (h | h)
    · exact Or.inl h
    · refine Or.inr ?_
      rw [foldl_max_lt_iff]
      have hall : ∀ x ∈ q0 :: qs, x < p := by
        rw [← hpri]
        rintro x hx
        obtain ⟨u, hu, rfl⟩ := List.mem_map.mp hx
        exact h u hu
      exact ⟨hall q0 (List.mem_cons_self _ _),
        fun x hx => hall x (List.mem_cons_of_mem _ hx)⟩
  · rintro (h | h)
    · exact Or.inl h
    · refine Or.inr fun u hu => ?_
      have hx : u.priority ∈ q0 :: qs := by
        rw [← hpri]
        exact List.mem_map_of_mem _ hu
      rw [foldl_max_lt_iff] at h
      rcases List.mem_cons.mp hx with heq | hmem
      · rw [heq]; exact h.1
      · exact h.2 _ hmem

/-- C2 witness: on a tuner with subscriber priorities 0 and 1, priority
2 can grab, priority 1 cannot, and the max formulation applies with
`q0 = 0`, `qs = [1]`. -/
theorem tuner_can_grab_iff_witness :
    tunerP01.can_grab 2 = true ∧ ¬ tunerP01.can_grab 1 = true
    ∧ (tunerP01.can_grab 2 = true ↔
        (2 : Int) = TunerUserPriority.GRAB ∨ [(1 : Int)].foldl max 0 < 2) := by
  refine ⟨?_, ?_, ?_⟩
  · exact (tuner_can_grab_iff tunerP01 2).1.mpr (Or.inr (by decide))
  · intro hc
    rcases (tuner_can_grab_iff tunerP01 1).1.mp hc with h | h
    · exact absurd h (by decide)
    · exact absurd (h (create_user 1) (by decide)) (by decide)
  · exact (tuner_can_grab_iff tunerP01 2).2 sessionP01 0 [1] rfl rfl

/-- C10: for an active session whose subscriber map is empty,
`can_grab` holds vacuously for every priority, at the session level and
at the tuner level. -/
theorem can_grab_empty_subscribers (t : Tuner) (s : TunerSession)
    (ha : t.activity = .Active s) (hs : s.subscribers = []) (p : Int) :
    s.can_grab p = true ∧ t.can_grab p = true := by
  have h1 : s.can_grab p = true := by
    simp [TunerSession.can_grab, hs]
  refine ⟨h1, ?_⟩
  simp [Tuner.can_grab, TunerActivity.can_grab, ha, h1]

/-- C10 witness: an active tuner that lost all its subscribers can be
grabbed even by priority 0. -/
theorem can_grab_empty_subscribers_witness :
    emptySession.can_grab 0 = true ∧ emptyTuner.can_grab 0 = true :=
  can_grab_empty_subscribers emptyTuner emptySession rfl rfl 0

/-- C5: tuner activation is fail-closed.  For an inactive tuner, if
template rendering fails with `e` then `activate` returns `e` and the
tuner (hence its `Inactive` activity) is unchanged; likewise if the
template renders but spawning fails. -/
theorem tuner_activate_fail_closed (env : CommandEnv) (t : Tuner)
    (channel_type : ChannelType) (channel : String)
    (hin : t.activity = .Inactive) :
    (∀ e, t.make_command env channel_type channel = .error e →
        t.activate env channel_type channel = some (.error e, t))
    ∧ (∀ command e, t.make_command env channel_type channel = .ok command →
        env.spawn_process command = .error e →
        t.activate env channel_type channel = some (.error e, t)) := by
  obtain ⟨index, name, channel_types, command0, activity⟩ := t
  replace hin : activity = .Inactive := hin
  subst hin
  constructor
  · intro e he
    simp [Tuner.activate, he]
  · intro command e hcmd hspawn
    simp [Tuner.activate, hcmd, TunerActivity.activate, TunerSession.new, hspawn]

/-- C5 witness: under `modelEnv`, activating with command `cmd \x27`
fails with `CommandFailed(UnableToParse)` and with `no-such-command`
fails with `CommandFailed(UnableToSpawn)`; both leave the tuner (still
`Inactive`) unchanged. -/
theorem tuner_activate_fail_closed_witness :
    tunerBadParse.activate modelEnv .GR "" =
      some (.error (.CommandFailed .UnableToParse), tunerBadParse)
    ∧ tunerBadSpawn.activate modelEnv .GR "" =
      some (.error (.CommandFailed .UnableToSpawn), tunerBadSpawn) := by
  constructor
  · exact (tuner_activate_fail_closed modelEnv tunerBadParse .GR "" rfl).2
      badParseCommand (.CommandFailed .UnableToParse) rfl rfl
  · exact (tuner_activate_fail_closed modelEnv tunerBadSpawn .GR "" rfl).2
      "no-such-command" (.CommandFailed .UnableToSpawn) rfl rfl

/-- C6: `Tuner::stop_streaming(id)` returns `SessionNotFound` and
leaves the tuner unchanged when the tuner is inactive or when the
stored session id differs from `id.session_id`; otherwise it removes
the subscriber with `id.serial_number` and returns `Ok`, deactivating
the tuner when no subscribers remain. -/
theorem tuner_stop_streaming_cases (t : Tuner) (id : TunerSubscriptionId) :
    (t.activity = .Inactive →
        t.stop_streaming id = (.error .SessionNotFound, t))
    ∧ (∀ s, t.activity = .Active s → s.id ≠ id.session_id →
        t.stop_streaming id = (.error .SessionNotFound, t))
    ∧ (∀ s, t.activity = .Active s → s.id = id.session_id →
        ∀ s2, s2 = { s with
            subscribers := subscribersRemove id.serial_number s.subscribers } →
        t.stop_streaming id =
          (.ok (),
            if s2.subscribers.length = 0 then t.deactivate
            else { t with activity := .Active s2 })) := by
  obtain ⟨index, name, channel_types, command, activity⟩ := t
  refine ⟨?_, ?_, ?_⟩
  · intro hin
    replace hin : activity = .Inactive := hin
    subst hin
    rfl
  · intro s ha hne
    replace ha : activity = .Active s := ha
    subst ha
    simp [Tuner.stop_streaming, TunerActivity.stop_streaming,
      TunerSession.stop_streaming, hne]
  · intro s ha heq s2 hs2
    replace ha : activity = .Active s := ha
    subst ha
    subst hs2
    simp only [Tuner.stop_streaming, TunerActivity.stop_streaming,
      TunerSession.stop_streaming]
    rw [if_neg (by simp [heq])]
    by_cases hlen : (subscribersRemove id.serial_number s.subscribers).length = 0
    · simp [hlen, Tuner.deactivate, TunerActivity.deactivate]
    · simp [hlen]

/-- C6 witness: on an active tuner with one real subscriber, stopping
with the all-zero default id returns `SessionNotFound` and stopping
with the real id returns `Ok` and deactivates the tuner. -/
theorem tuner_stop_streaming_cases_witness :
    tunerOneSub.stop_streaming TunerSubscriptionId.default =
      (.error .SessionNotFound, tunerOneSub)
    ∧ tunerOneSub.stop_streaming realSubId = (.ok (), tunerOneSub.deactivate) := by
  constructor
  · exact (tuner_stop_streaming_cases tunerOneSub TunerSubscriptionId.default).2.1
      sessionOneSub rfl (by decide)
  · have h := (tuner_stop_streaming_cases tunerOneSub realSubId).2.2
      sessionOneSub rfl rfl _ rfl
    rw [h]
    rfl

/-- The wrapped serial formula: starting from any in-range counter,
the i-th subscribe returns `(next + i) % 2^32`. -/
theorem subscribe_list_serials_mod (users : List TunerUser) :
    ∀ s : TunerSession, s.next_serial_number < u32Mod →
    (s.subscribe_list users).2 =
      (List.range users.length).map
        (fun i => (s.next_serial_number + i) % u32Mod) := by
  induction users with
  | nil => intro s h; rfl
  | cons u us ih =>
    intro s h
    have hnext : (s.subscribe u).2.next_serial_number
        = (s.next_serial_number + 1) % u32Mod := rfl
    have hlt : (s.next_serial_number + 1) % u32Mod < u32Mod :=
      Nat.mod_lt _ (by decide)
    have htail := ih ((s.subscribe u).2) (by rw [hnext]; exact hlt)
    simp only [List.length_cons, List.range_succ_eq_map]
    show (s.subscribe u).1.serial_number ::
        ((s.subscribe u).2.subscribe_list us).2 = _
    rw [htail, hnext]
    simp only [List.map_cons, List.map_map]
    congr 1
    · show s.next_serial_number = (s.next_serial_number + 0) % u32Mod
      rw [Nat.add_zero, Nat.mod_eq_of_lt h]
    · refine List.map_congr_left (fun i _ => ?_)
      show ((s.next_serial_number + 1) % u32Mod + i) % u32Mod
          = (s.next_serial_number + Nat.succ i) % u32Mod
      rw [Nat.mod_add_mod]
      have harith : s.next_serial_number + 1 + i
          = s.next_serial_number + Nat.succ i := by omega
      rw [harith]

/-- C7 counterexample: `next_serial_number` is a `u32`, so at the
`2^32`-th increment the counter wraps (release builds; debug builds
panic) and serials repeat: on a fresh session, subscribe number 1 and
subscribe number `2^32 + 1` both return serial 1 — the serial is
reused and the sequence is not strictly increasing. -/
theorem session_subscribe_serials_counterexample :
    (sessionFresh.subscribe_list
        (List.replicate 4294967297 (create_user 0))).2[0]? = some 1
    ∧ (sessionFresh.subscribe_list
        (List.replicate 4294967297 (create_user 0))).2[4294967296]? = some 1 := by
  have h := subscribe_list_serials_mod
    (List.replicate 4294967297 (create_user 0)) sessionFresh (by decide)
  rw [h]
  constructor
  · rw [List.getElem?_map, List.getElem?_range
      (by rw [List.length_replicate]; omega)]
    rfl
  · rw [List.getElem?_map, List.getElem?_range
      (by rw [List.length_replicate]; omega)]
    show some ((sessionFresh.next_serial_number + 4294967296) % u32Mod) = some 1
    rfl

/-- C7 (amended): within one session the subscription counter is a
`u32`.  As long as the counter does not overflow
(`next_serial_number + k ≤ 2^32`), `k` successive subscribes return
the strictly increasing consecutive serials
`next, next+1, …, next+k-1`; a fresh session starts at
`next_serial_number = 1`, so its first `k < 2^32` subscribes return
`1, 2, …, k` with no serial reused; `stop_streaming` never rewinds the
counter.  At the `2^32`-th increment the counter wraps and serials
repeat (see the counterexample). -/
theorem session_subscribe_serials :
    (∀ (s : TunerSession) (users : List TunerUser),
        s.next_serial_number + users.length ≤ u32Mod →
        (s.subscribe_list users).2 = List.range' s.next_serial_number users.length)
    ∧ (∀ (s : TunerSession) (users : List TunerUser),
        s.next_serial_number < u32Mod →
        (s.subscribe_list users).1.next_serial_number =
          (s.next_serial_number + users.length) % u32Mod)
    ∧ (∀ (env : CommandEnv) (i : Nat) (ct : ChannelType) (ch command : String)
        (s : TunerSession), TunerSession.new env i ct ch command = .ok s →
        s.next_serial_number = 1)
    ∧ (∀ (s : TunerSession) (id : TunerSubscriptionId),
        ((s.stop_streaming id).2).next_serial_number = s.next_serial_number)
    ∧ (∀ (env : CommandEnv) (i : Nat) (ct : ChannelType) (ch command : String)
        (s : TunerSession) (users : List TunerUser),
        TunerSession.new env i ct ch command = .ok s →
        users.length < u32Mod →
        (s.subscribe_list users).2 = List.range' 1 users.length) := by
  have hsub : ∀ (users : List TunerUser) (s : TunerSession),
      s.next_serial_number + users.length ≤ u32Mod →
      (s.subscribe_list users).2 =
        List.range' s.next_serial_number users.length := by
    intro users
    induction users with
    | nil => intro s _; rfl
    | cons u us ih =>
      intro s h
      simp only [List.length_cons] at h
      rcases (by omega : us.length = 0 ∨ s.next_serial_number + 1 < u32Mod)
        with h0 | hlt
      · obtain rfl := List.length_eq_zero.mp h0
        show (s.subscribe u).1.serial_number ::
            ((s.subscribe u).2.subscribe_list []).2
            = List.range' s.next_serial_number 1
        rw [List.range'_one]
        rfl
      · have hnext : (s.subscribe u).2.next_serial_number
            = s.next_serial_number + 1 := by
          show (s.next_serial_number + 1) % u32Mod = s.next_serial_number + 1
          exact Nat.mod_eq_of_lt hlt
        have ih1 := ih ((s.subscribe u).2) (by rw [hnext]; omega)
        show (s.subscribe u).1.serial_number ::
            ((s.subscribe u).2.subscribe_list us).2
            = List.range' s.next_serial_number (us.length + 1)
        rw [ih1, hnext, List.range'_succ]
        rfl
  have hcounter : ∀ (users : List TunerUser) (s : TunerSession),
      s.next_serial_number < u32Mod →
      (s.subscribe_list users).1.next_serial_number =
        (s.next_serial_number + users.length) % u32Mod := by
    intro users
    induction users with
    | nil =>
      intro s h
      show s.next_serial_number = (s.next_serial_number + 0) % u32Mod
      rw [Nat.add_zero, Nat.mod_eq_of_lt h]
    | cons u us ih =>
      intro s h
      have hlt : (s.next_serial_number + 1) % u32Mod < u32Mod :=
        Nat.mod_lt _ (by decide)
      have ih2 := ih ((s.subscribe u).2) hlt
      show ((s.subscribe u).2.subscribe_list us).1.next_serial_number
          = (s.next_serial_number + (us.length + 1)) % u32Mod
      rw [ih2]
      show ((s.next_serial_number + 1) % u32Mod + us.length) % u32Mod
          = (s.next_serial_number + (us.length + 1)) % u32Mod
      rw [Nat.mod_add_mod]
      have harith : s.next_serial_number + 1 + us.length
          = s.next_serial_number + (us.length + 1) := by omega
      rw [harith]
  have hnew : ∀ (env : CommandEnv) (i : Nat) (ct : ChannelType)
      (ch command : String) (s : TunerSession),
      TunerSession.new env i ct ch command = .ok s → s.next_serial_number = 1 := by
    intro env i ct ch command s h
    unfold TunerSession.new at h
    cases hsp : env.spawn_process command with
    | error e => rw [hsp] at h; cases h
    | ok pid =>
      rw [hsp] at h
      cases h
      rfl
  refine ⟨fun s users => hsub users s, fun s users => hcounter users s, hnew,
    ?_, ?_⟩
  · intro s id
    unfold TunerSession.stop_streaming
    split <;> rfl
  · intro env i ct ch command s users h hlen
    rw [hsub users s (by rw [hnew env i ct ch command s h]; omega),
      hnew env i ct ch command s h]

/-- C7 witness: a session freshly created under `modelEnv` hands out
serials `[1, 2, 3]` to three successive subscribers. -/
theorem session_subscribe_serials_witness :
    TunerSession.new modelEnv 0 .GR "1" "true" = .ok sessionFresh
    ∧ (sessionFresh.subscribe_list
        [create_user 0, create_user 1, create_user 2]).2 = [1, 2, 3] := by
  refine ⟨rfl, ?_⟩
  rw [session_subscribe_serials.2.2.2.2 modelEnv 0 .GR "1" "true" sessionFresh
    [create_user 0, create_user 1, create_user 2] rfl (by decide)]
  rfl

theorem updateFirst_congr (p q : Tuner → Bool)
    (f : Tuner → Option (Except Error TunerSubscriptionId × Tuner))
    (hp : ∀ t, p t = q t) :
    ∀ l, updateFirst p f l = updateFirst q f l := by
  intro l
  induction l with
  | nil => rfl
  | cons t ts ih =>
    simp only [updateFirst, hp t, ih]

/-- C3: `TunerManager::activate_tuner` implements exactly the §4.3
selection policy: (1) Tracker users pin to their tuner index,
subscribing when it is active and failing `TunerUnavailable` (touching
no tuner) otherwise; (2) else subscribe to the first active tuner whose
`(channel_type, channel)` exactly match, spawning nothing; (3) else
activate and subscribe the first inactive tuner supporting the channel
type; (4) else deactivate, reactivate and subscribe the first
supporting tuner where `can_grab(user.priority)` holds; (5) else
`TunerUnavailable`. -/
theorem activate_tuner_eq_selection_policy (env : CommandEnv)
    (tuners : List Tuner) (channel_type : ChannelType) (channel : String)
    (user : TunerUser) :
    TunerManager.activate_tuner env tuners channel_type channel user =
      TunerManager.selection_policy env tuners channel_type channel user := by
  have hreuse : ∀ t : Tuner, t.is_reuseable channel_type channel =
      (match t.activity with
        | .Inactive => false
        | .Active session =>
          session.channel_type == channel_type && session.channel == channel) := by
    intro t
    cases h : t.activity with
    | Inactive => simp [Tuner.is_reuseable, TunerActivity.is_reuseable, h]
    | Active session =>
      simp [Tuner.is_reuseable, TunerActivity.is_reuseable, h,
        TunerSession.is_reuseable]
  have havail : ∀ t : Tuner, t.is_available_for channel_type =
      (!t.is_active && t.channel_types.contains channel_type) := fun t => rfl
  have hsupp : ∀ t : Tuner,
      (t.is_supported_type channel_type && t.can_grab user.priority) =
      (t.channel_types.contains channel_type && t.can_grab user.priority) :=
    fun t => rfl
  obtain ⟨info, priority⟩ := user
  cases info with
  | Tracker stream_id => rfl
  | Web remote agent =>
    simp only [TunerManager.activate_tuner, TunerManager.selection_policy]
    rw [updateFirst_congr _ _ _ hreuse, updateFirst_congr _ _ _ havail,
      updateFirst_congr _ _ _ hsupp]
  | Job name =>
    simp only [TunerManager.activate_tuner, TunerManager.selection_policy]
    rw [updateFirst_congr _ _ _ hreuse, updateFirst_congr _ _ _ havail,
      updateFirst_congr _ _ _ hsupp]

theorem schedulesLookup_isSome_eq_any (m : List (ServiceTriple × EpgSchedule))
    (k : ServiceTriple) :
    (schedulesLookup m k).isSome = m.any (fun e => e.1 == k) := by
  induction m with
  | nil => rfl
  | cons e m ih =>
    by_cases he : e.1 = k <;> simp [schedulesLookup, he, List.any_cons, ih]

theorem schedulesLookup_map_modify (m : List (ServiceTriple × EpgSchedule))
    (k : ServiceTriple) (f : EpgSchedule → EpgSchedule) :
    schedulesLookup (m.map (fun e => if e.1 == k then (k, f e.2) else e)) k
      = (schedulesLookup m k).map f := by
  induction m with
  | nil => rfl
  | cons e m ih =>
    by_cases he : e.1 = k
    · simp [schedulesLookup, he]
    · simp [schedulesLookup, he] at ih ⊢
      exact ih

theorem schedulesLookup_map_ne (m : List (ServiceTriple × EpgSchedule))
    (k k2 : ServiceTriple) (f : EpgSchedule → EpgSchedule) (hne : k ≠ k2) :
    schedulesLookup (m.map (fun e => if e.1 == k then (k, f e.2) else e)) k2
      = schedulesLookup m k2 := by
  induction m with
  | nil => rfl
  | cons e m ih =>
    by_cases he : e.1 = k
    · simp [schedulesLookup, he, hne] at ih ⊢
      exact ih
    · by_cases hk2 : e.1 = k2
      · simp [schedulesLookup, he, hk2, Ne.symm hne]
      · simp [schedulesLookup, he, hk2] at ih ⊢
        exact ih

theorem schedulesLookup_append_single_self
    (m : List (ServiceTriple × EpgSchedule)) (k : ServiceTriple)
    (v0 : EpgSchedule) (h : schedulesLookup m k = none) :
    schedulesLookup (m ++ [(k, v0)]) k = some v0 := by
  induction m with
  | nil => simp [schedulesLookup]
  | cons e m ih =>
    by_cases he : e.1 = k
    · simp [schedulesLookup, he] at h
    · simp only [schedulesLookup, if_neg (by simp [he] : ¬ (e.1 == k) = true)] at h
      simp [schedulesLookup, he, ih h]

theorem schedulesLookup_append_single_ne
    (m : List (ServiceTriple × EpgSchedule)) (k k2 : ServiceTriple)
    (v0 : EpgSchedule) (hne : k ≠ k2) :
    schedulesLookup (m ++ [(k, v0)]) k2 = schedulesLookup m k2 := by
  induction m with
  | nil => simp [schedulesLookup, hne]
  | cons e m ih =>
    by_cases he : e.1 = k2 <;> simp [schedulesLookup, he, ih]

theorem schedulesLookup_upsert_self (m : List (ServiceTriple × EpgSchedule))
    (k : ServiceTriple) (f : EpgSchedule → EpgSchedule) (v0 : EpgSchedule) :
    schedulesLookup (schedulesUpsert m k f v0) k =
      some (match schedulesLookup m k with
        | some v => f v
        | none => v0) := by
  unfold schedulesUpsert
  by_cases hm : m.any (fun e => e.1 == k) = true
  · rw [if_pos hm, schedulesLookup_map_modify]
    have hs : (schedulesLookup m k).isSome = true := by
      rw [schedulesLookup_isSome_eq_any]; exact hm
    obtain ⟨v, hv⟩ := Option.isSome_iff_exists.mp hs
    rw [hv]
    rfl
  · rw [if_neg hm]
    have hnone : schedulesLookup m k = none := by
      cases hval : schedulesLookup m k with
      | none => rfl
      | some v =>
        exfalso
        have := schedulesLookup_isSome_eq_any m k
        rw [hval] at this
        exact hm this.symm
    rw [schedulesLookup_append_single_self m k v0 hnone, hnone]

theorem schedulesLookup_upsert_ne (m : List (ServiceTriple × EpgSchedule))
    (k k2 : ServiceTriple) (f : EpgSchedule → EpgSchedule) (v0 : EpgSchedule)
    (hne : k ≠ k2) :
    schedulesLookup (schedulesUpsert m k f v0) k2 = schedulesLookup m k2 := by
  unfold schedulesUpsert
  by_cases hm : m.any (fun e => e.1 == k) = true
  · rw [if_pos hm, schedulesLookup_map_ne m k k2 f hne]
  · rw [if_neg hm, schedulesLookup_append_single_ne m k k2 v0 hne]

theorem prepareModify_stable (midnight timestamp : Int)
    (hmid : ¬ timestamp < midnight) (v : EpgSchedule)
    (hv : v.updated_at = timestamp) :
    prepareModify midnight timestamp v = v := by
  obtain ⟨tr, tb, oe, ua⟩ := v
  replace hv : ua = timestamp := hv
  subst hv
  simp [prepareModify, hmid]

theorem prepare_fold_lookup (midnight timestamp : Int)
    (hmid : ¬ timestamp < midnight) (services : List EpgService) :
    ∀ (m : List (ServiceTriple × EpgSchedule)) (t : ServiceTriple),
    schedulesLookup
      (services.foldl
        (fun m service =>
          schedulesUpsert m service.triple (prepareModify midnight timestamp)
            (EpgSchedule.new service.triple timestamp))
        m) t =
      if services.any (fun sv => sv.triple == t) then
        some (match schedulesLookup m t with
          | some v => prepareModify midnight timestamp v
          | none => EpgSchedule.new t timestamp)
      else schedulesLookup m t := by
  induction services with
  | nil => intro m t; simp
  | cons sv rest ih =>
    intro m t
    rw [List.foldl_cons]
    by_cases hst : sv.triple = t
    · subst hst
      rw [ih]
      have hup := schedulesLookup_upsert_self m sv.triple
        (prepareModify midnight timestamp) (EpgSchedule.new sv.triple timestamp)
      have hcons : (sv :: rest).any (fun sv2 => sv2.triple == sv.triple) = true := by
        simp [List.any_cons]
      by_cases hrest : rest.any (fun sv2 => sv2.triple == sv.triple) = true
      · rw [if_pos hrest, hup, if_pos hcons]
        show some (prepareModify midnight timestamp
          (match schedulesLookup m sv.triple with
            | some v => prepareModify midnight timestamp v
            | none => EpgSchedule.new sv.triple timestamp)) = _
        congr 1
        cases hl : schedulesLookup m sv.triple with
        | some v => exact prepareModify_stable _ _ hmid _ rfl
        | none => exact prepareModify_stable _ _ hmid _ rfl
      · rw [if_neg hrest, hup, if_pos hcons]
    · have hst2 : (sv.triple == t) = false := by simp [hst]
      rw [ih, schedulesLookup_upsert_ne m sv.triple t _ _ hst]
      simp only [List.any_cons, hst2, Bool.false_or]

theorem schedulesLookup_filter_not_contains (bad : List ServiceTriple)
    (m : List (ServiceTriple × EpgSchedule)) (t : ServiceTriple) :
    schedulesLookup (m.filter (fun e => !(bad.contains e.1))) t =
      if t ∈ bad then none else schedulesLookup m t := by
  induction m with
  | nil =>
    simp only [List.filter_nil]
    split <;> rfl
  | cons e m ih =>
    by_cases hb : e.1 ∈ bad
    · rw [List.filter_cons, if_neg (by simp [hb]), ih]
      by_cases het : e.1 = t
      · rw [if_pos (het ▸ hb), if_pos (het ▸ hb)]
      · by_cases hbt : t ∈ bad
        · rw [if_pos hbt, if_pos hbt]
        · rw [if_neg hbt, if_neg hbt]
          simp [schedulesLookup, het]
    · rw [List.filter_cons, if_pos (by simp [hb])]
      by_cases het : e.1 = t
      · rw [show schedulesLookup ((e.1, e.2) :: m.filter (fun e => !(bad.contains e.1))) t
            = some e.2 from by simp [schedulesLookup, het]]
        rw [if_neg (het ▸ hb), show schedulesLookup (e :: m) t = some e.2 from by
          simp [schedulesLookup, het]]
      · simp only [schedulesLookup, if_neg (by simp [het] : ¬ (e.1 == t) = true)]
        exact ih

/-- C4: after `Epg::prepare_schedules(timestamp)` a schedule exists for
exactly the service triples of `services` (pre-existing schedules whose
triple is gone are removed, missing ones are created); a surviving
pre-existing schedule with `updated_at < midnight-of-timestamp` has
`save_overnight_events(midnight)` applied and `updated_at` set to
`timestamp`. -/
theorem prepare_schedules_spec (epg : Epg) (timestamp : Int) :
    (∀ t : ServiceTriple,
        ((schedulesLookup (epg.prepare_schedules timestamp).schedules t).isSome = true ↔
          epg.services.any (fun sv => sv.triple == t) = true))
    ∧ (∀ t sched, schedulesLookup epg.schedules t = some sched →
        epg.services.any (fun sv => sv.triple == t) = true →
        sched.updated_at < midnightOf timestamp →
        schedulesLookup (epg.prepare_schedules timestamp).schedules t =
          some { sched.save_overnight_events (midnightOf timestamp) with
                  updated_at := timestamp })
    ∧ (∀ t : ServiceTriple, schedulesLookup epg.schedules t = none →
        epg.services.any (fun sv => sv.triple == t) = true →
        schedulesLookup (epg.prepare_schedules timestamp).schedules t =
          some (EpgSchedule.new t timestamp)) := by
  have hmid : ¬ timestamp < midnightOf timestamp := by
    simp only [midnightOf, dayMillis]
    omega
  have hdef : (epg.prepare_schedules timestamp).schedules =
      (epg.services.foldl
        (fun m service =>
          schedulesUpsert m service.triple
            (prepareModify (midnightOf timestamp) timestamp)
            (EpgSchedule.new service.triple timestamp))
        epg.schedules).filter
        (fun e => !(((epg.schedules.map (fun e2 => e2.1)).filter
          (fun id => !(epg.services.any (fun sv => sv.triple == id)))).contains e.1)) := rfl
  have hlook : ∀ t, schedulesLookup (epg.prepare_schedules timestamp).schedules t =
      if t ∈ (epg.schedules.map (fun e2 => e2.1)).filter
          (fun id => !(epg.services.any (fun sv => sv.triple == id))) then none
      else if epg.services.any (fun sv => sv.triple == t) then
        some (match schedulesLookup epg.schedules t with
          | some v => prepareModify (midnightOf timestamp) timestamp v
          | none => EpgSchedule.new t timestamp)
      else schedulesLookup epg.schedules t := by
    intro t
    rw [hdef, schedulesLookup_filter_not_contains, prepare_fold_lookup _ _ hmid]
  have hmem : ∀ t : ServiceTriple,
      t ∈ (epg.schedules.map (fun e2 => e2.1)).filter
        (fun id => !(epg.services.any (fun sv => sv.triple == id))) ↔
      ((schedulesLookup epg.schedules t).isSome = true ∧
        ¬ epg.services.any (fun sv => sv.triple == t) = true) := by
    intro t
    rw [List.mem_filter]
    constructor
    · rintro ⟨hmm, hp⟩
      refine ⟨?_, ?_⟩
      · rw [schedulesLookup_isSome_eq_any, List.any_eq_true]
        obtain ⟨e, he, rfl⟩ := List.mem_map.mp hmm
        exact ⟨e, he, by simp⟩
      · simpa using hp
    · rintro ⟨hsome, hna⟩
      refine ⟨?_, ?_⟩
      · rw [schedulesLookup_isSome_eq_any, List.any_eq_true] at hsome
        obtain ⟨e, he, hek⟩ := hsome
        exact List.mem_map.mpr ⟨e, he, by simpa using hek⟩
      · simpa using hna
  refine ⟨?_, ?_, ?_⟩
  · intro t
    rw [hlook]
    by_cases hserv : epg.services.any (fun sv => sv.triple == t) = true
    · rw [if_neg (fun hmm => ((hmem t).mp hmm).2 hserv), if_pos hserv]
      simp [hserv]
    · by_cases hsome : (schedulesLookup epg.schedules t).isSome = true
      · rw [if_pos ((hmem t).mpr ⟨hsome, hserv⟩)]
        simp [hserv]
      · rw [if_neg (fun hmm => hsome ((hmem t).mp hmm).1), if_neg hserv]
        exact iff_of_false hsome hserv
  · intro t sched hsched hserv hold
    rw [hlook t, if_neg (fun hmm => ((hmem t).mp hmm).2 hserv), if_pos hserv,
      hsched]
    show some (prepareModify (midnightOf timestamp) timestamp sched) = _
    simp [prepareModify, hold]
  · intro t hsched hserv
    rw [hlook t, if_neg (fun hmm => ((hmem t).mp hmm).2 hserv), if_pos hserv,
      hsched]

/-- C4 witness: on `epgTest` at `timestamp = 86400000` (the second
day's midnight): the stale schedule for (1,2,3) is refreshed via
`save_overnight_events`, a schedule for (4,5,6) is created, and the
garbage schedule for (9,9,9) is removed. -/
theorem prepare_schedules_spec_witness :
    schedulesLookup (epgTest.prepare_schedules 86400000).schedules ⟨1, 2, 3⟩ =
      some { schedOld.save_overnight_events (midnightOf 86400000) with
              updated_at := 86400000 }
    ∧ schedulesLookup (epgTest.prepare_schedules 86400000).schedules ⟨4, 5, 6⟩ =
      some (EpgSchedule.new ⟨4, 5, 6⟩ 86400000)
    ∧ ¬ (schedulesLookup
          (epgTest.prepare_schedules 86400000).schedules ⟨9, 9, 9⟩).isSome = true := by
  refine ⟨?_, ?_, ?_⟩
  · exact (prepare_schedules_spec epgTest 86400000).2.1 ⟨1, 2, 3⟩ schedOld
      (by decide) (by decide) (by decide)
  · exact (prepare_schedules_spec epgTest 86400000).2.2 ⟨4, 5, 6⟩
      (by decide) (by decide)
  · intro h
    exact absurd (((prepare_schedules_spec epgTest 86400000).1 ⟨9, 9, 9⟩).mp h)
      (by decide)

theorem decodeList_map (f : Json → Option α) (g : α → Json) (l : List α)
    (h : ∀ x ∈ l, f (g x) = some x) : decodeList f (l.map g) = some l := by
  induction l with
  | nil => rfl
  | cons x xs ih =>
    simp only [List.map_cons, decodeList]
    rw [h x (List.mem_cons_self x xs),
      ih (fun y hy => h y (List.mem_cons_of_mem x hy))]
    rfl

theorem nibble_roundtrip (x : Nat × Nat × Nat × Nat) :
    decodeNibble (nibbleJson x) = some x := by
  obtain ⟨a, b, c, d⟩ := x
  rfl

theorem item_roundtrip (x : String × String) :
    decodeItem (itemJson x) = some x := by
  obtain ⟨a, b⟩ := x
  rfl

theorem descriptor_roundtrip (d : EitDescriptor) :
    EitDescriptor.fromJson d.toJson = some d := by
  cases d with
  | ShortEvent event_name text => rfl
  | Component stream_content component_type => rfl
  | AudioComponent component_type sampling_rate => rfl
  | Content nibbles =>
    show (decodeArr decodeNibble (.arr (nibbles.map nibbleJson))).map _ = _
    rw [show decodeArr decodeNibble (.arr (nibbles.map nibbleJson)) = some nibbles
      from decodeList_map _ _ _ (fun x _ => nibble_roundtrip x)]
    rfl
  | ExtendedEvent items =>
    show (decodeArr decodeItem (.arr (items.map itemJson))).map _ = _
    rw [show decodeArr decodeItem (.arr (items.map itemJson)) = some items
      from decodeList_map _ _ _ (fun x _ => item_roundtrip x)]
    rfl

theorem event_roundtrip (e : EitEvent) :
    EitEvent.fromJson e.toJson = some e := by
  obtain ⟨id, st, du, sc, ds⟩ := e
  show (decodeArr EitDescriptor.fromJson
      (.arr (ds.map EitDescriptor.toJson))).map _ = _
  rw [show decodeArr EitDescriptor.fromJson (.arr (ds.map EitDescriptor.toJson))
      = some ds from decodeList_map _ _ _ (fun x _ => descriptor_roundtrip x)]
  rfl

theorem section_roundtrip (s : EpgSection) :
    EpgSection.fromJson s.toJson = some s := by
  obtain ⟨v, evs⟩ := s
  show (decodeArr EitEvent.fromJson (.arr (evs.map EitEvent.toJson))).map _ = _
  rw [show decodeArr EitEvent.fromJson (.arr (evs.map EitEvent.toJson))
      = some evs from decodeList_map _ _ _ (fun x _ => event_roundtrip x)]
  rfl

theorem decodeOpt_section (x : Option EpgSection) :
    decodeOpt EpgSection.fromJson (optJson EpgSection.toJson x) = some x := by
  cases x with
  | none => rfl
  | some y =>
    have hstep : decodeOpt EpgSection.fromJson (optJson EpgSection.toJson (some y))
        = (EpgSection.fromJson y.toJson).map some := by
      obtain ⟨v, evs⟩ := y
      rfl
    rw [hstep, section_roundtrip]
    rfl

theorem segment_roundtrip (seg : EpgSegment) (h : seg.sections.length = 8) :
    EpgSegment.fromJson seg.toJson = some seg := by
  obtain ⟨xs⟩ := seg
  replace h : xs.length = 8 := h
  show (if (xs.map (optJson EpgSection.toJson)).length = 8 then
      (decodeList (decodeOpt EpgSection.fromJson)
        (xs.map (optJson EpgSection.toJson))).map _
    else none) = _
  rw [if_pos (by simpa using h),
    decodeList_map _ _ _ (fun x _ => decodeOpt_section x)]
  rfl

theorem table_roundtrip (t : EpgTable) (h : t.wf = true) :
    EpgTable.fromJson t.toJson = some t := by
  obtain ⟨segs⟩ := t
  simp only [EpgTable.wf, Bool.and_eq_true, beq_iff_eq, List.all_eq_true] at h
  obtain ⟨hlen, hall⟩ := h
  show (if (segs.map EpgSegment.toJson).length = 32 then
      (decodeList EpgSegment.fromJson (segs.map EpgSegment.toJson)).map _
    else none) = _
  rw [if_pos (by simpa using hlen),
    decodeList_map _ _ _ (fun x hx => segment_roundtrip x (hall x hx))]
  rfl

theorem decodeOpt_table (x : Option EpgTable)
    (h : ∀ t2, x = some t2 → t2.wf = true) :
    decodeOpt EpgTable.fromJson (optJson EpgTable.toJson x) = some x := by
  cases x with
  | none => rfl
  | some y =>
    have hstep : decodeOpt EpgTable.fromJson (optJson EpgTable.toJson (some y))
        = (EpgTable.fromJson y.toJson).map some := by
      obtain ⟨segs⟩ := y
      rfl
    rw [hstep, table_roundtrip y (h y rfl)]
    rfl

theorem triple_roundtrip (t : ServiceTriple) :
    ServiceTriple.fromJson t.toJson = some t := by
  obtain ⟨n1, n2, n3⟩ := t
  rfl

theorem schedule_roundtrip_wf (s : EpgSchedule) (h : s.wf = true) :
    EpgSchedule.fromJson s.toJson = some s := by
  obtain ⟨tr, tb, oe, ua⟩ := s
  simp only [EpgSchedule.wf, Bool.and_eq_true, beq_iff_eq, List.all_eq_true] at h
  obtain ⟨hlen, hall⟩ := h
  show (if (tb.map (optJson EpgTable.toJson)).length = 32 then
      (ServiceTriple.fromJson tr.toJson).bind _
    else none) = _
  rw [if_pos (by simpa using hlen), triple_roundtrip,
    decodeList_map _ _ _ (fun x hx => decodeOpt_table x (fun t2 ht2 => by
      have hx2 := hall x hx
      rw [ht2] at hx2
      exact hx2)),
    show decodeArr EitEvent.fromJson (.arr (oe.map EitEvent.toJson)) = some oe
      from decodeList_map _ _ _ (fun x _ => event_roundtrip x)]
  rfl

theorem segment_update_length (seg : EpgSegment) (sec : EitSection)
    (h : seg.sections.length = 8) : (seg.update sec).sections.length = 8 := by
  simp only [EpgSegment.update]
  rw [List.length_set, clearFold_length]
  exact h

theorem table_update_wf (t : EpgTable) (sec : EitSection) (t2 : EpgTable)
    (h : t.wf = true) (hupd : t.update sec = some t2) : t2.wf = true := by
  simp only [EpgTable.wf, Bool.and_eq_true, beq_iff_eq, List.all_eq_true] at h ⊢
  obtain ⟨hlen, hall⟩ := h
  unfold EpgTable.update at hupd
  split at hupd
  · cases hupd
  · cases hupd
    next seg hget =>
    refine ⟨by rw [List.length_set]; exact hlen, ?_⟩
    intro x hx
    rcases List.mem_or_eq_of_mem_set hx with hmem | rfl
    · exact hall x hmem
    · have hseg : seg ∈ t.segments := List.getElem?_mem hget
      have h8 := hall seg hseg
      simpa using segment_update_length seg sec (by simpa using h8)

theorem schedule_update_inv (s : EpgSchedule) (sec : EitSection)
    (s2 : EpgSchedule) (hupd : s.update sec = some s2) :
    ∃ i slot t2, sec.table_index = some i ∧ s.tables[i]? = some slot ∧
      (slot.getD EpgTable.default).update sec = some t2 ∧
      s2 = { s with tables := s.tables.set i (some t2) } := by
  unfold EpgSchedule.update at hupd
  split at hupd
  · cases hupd
  · next i htix =>
    split at hupd
    · cases hupd
    · next slot hget =>
      split at hupd
      · cases hupd
      · next t2 hti =>
        cases hupd
        exact ⟨i, slot, t2, htix, hget, hti, rfl⟩

theorem schedule_update_wf (s : EpgSchedule) (sec : EitSection)
    (s2 : EpgSchedule) (h : s.wf = true) (hupd : s.update sec = some s2) :
    s2.wf = true := by
  obtain ⟨i, slot, t2, htix, hget, hti, rfl⟩ := schedule_update_inv s sec s2 hupd
  simp only [EpgSchedule.wf, Bool.and_eq_true, beq_iff_eq, List.all_eq_true] at h ⊢
  obtain ⟨hlen, hall⟩ := h
  refine ⟨by rw [List.length_set]; exact hlen, ?_⟩
  intro x hx
  rcases List.mem_or_eq_of_mem_set hx with hmem | rfl
  · exact hall x hmem
  · have htblwf : (slot.getD EpgTable.default).wf = true := by
      cases slot with
      | none => decide
      | some t0 =>
        have := hall _ (List.getElem?_mem hget)
        exact this
    exact table_update_wf _ sec t2 htblwf hti

theorem reachable_wf (s : EpgSchedule) (h : s.Reachable) : s.wf = true := by
  induction h with
  | new triple now => rfl
  | update s s2 sec hr hupd ih => exact schedule_update_wf s sec s2 ih hupd
  | save s m hr ih =>
    have hsame : (s.save_overnight_events m).wf = s.wf := rfl
    rw [hsame]
    exact ih

/-- C8: JSON deserialization inverts JSON serialization on every
schedule reachable from `EpgSchedule::new` by `update` and
`save_overnight_events` calls, including the 32-slot optional-table
array, the overnight events and `updated_at`. -/
theorem schedule_serialization_roundtrip (s : EpgSchedule)
    (h : EpgSchedule.Reachable s) :
    EpgSchedule.fromJson (EpgSchedule.toJson s) = some s :=
  schedule_roundtrip_wf s (reachable_wf s h)

/-- C8 witness: the roundtrip at a freshly created schedule. -/
theorem schedule_serialization_roundtrip_witness :
    EpgSchedule.fromJson (EpgSchedule.toJson (EpgSchedule.new ⟨1, 2, 3⟩ 0))
      = some (EpgSchedule.new ⟨1, 2, 3⟩ 0) :=
  schedule_serialization_roundtrip (EpgSchedule.new ⟨1, 2, 3⟩ 0)
    (EpgSchedule.Reachable.new ⟨1, 2, 3⟩ 0)
